import Mathlib

/-!
Verification of the watch-mode dashboard of `src/cli/src/main.rs`.

The Rust functions are embedded shallowly: pure rendering helpers become
Lean functions on `String`, the interactive loop of `watch_mode` becomes an
explicit step function on a `SessionState` record, and the fallible process
and watcher boundaries are modelled by passing in the `Except` result the
operating system would deliver.  Terminal side effects (clearing the screen,
homing the cursor, flushing) carry no text and are not part of the model;
the text written between two clears is the rendered screen.
-/

namespace OsCamp

/-! ### ANSI colour constants (main.rs lines 15-22) -/

def GREEN : String := "\x1b[32m"
def RED : String := "\x1b[31m"
def YELLOW : String := "\x1b[33m"
def BLUE : String := "\x1b[34m"
def CYAN : String := "\x1b[36m"
def BOLD : String := "\x1b[1m"
def DIM : String := "\x1b[2m"
def RESET : String := "\x1b[0m"

/-! ### Data model (main.rs lines 24-42) -/

/-- `struct Exercise` (main.rs lines 24-32). -/
structure Exercise where
  name : String
  package : String
  path : String
  module : String
  description : String
  hint : String
deriving DecidableEq, Repr, Inhabited

/-- `struct TestResult` (main.rs lines 39-42). -/
structure TestResult where
  passed : Bool
  output : String
deriving DecidableEq, Repr, Inhabited

/-! ### Raw-mode printing (main.rs lines 127-136)

`rprint` performs `s.replace("\r\n", "\n").replace('\n', "\r\n")`: the two
chained replacements normalise every line break to `\r\n` in one
left-to-right scan, which is what `rprintChars` computes structurally. -/

def rprintChars : List Char → List Char
  | [] => []
  | '\r' :: '\n' :: rest => '\r' :: '\n' :: rprintChars rest
  | '\n' :: rest => '\r' :: '\n' :: rprintChars rest
  | c :: rest => c :: rprintChars rest

/-- `fn rprint` (main.rs lines 128-131): the text actually written out. -/
def rprint (s : String) : String := String.mk (rprintChars s.data)

/-- `fn rprintln` (main.rs lines 133-136). -/
def rprintln (s : String) : String := rprint s ++ "\r\n"

/-! ### Rust `str::lines`

`render_failure` and `render_hint` iterate `output.lines()`.  Rust's
`lines` splits at `\n`, strips one `\r` immediately before each `\n`, and
drops a final empty segment produced by a trailing terminator. -/

def splitNl : List Char → List (List Char)
  | [] => [[]]
  | '\n' :: rest => [] :: splitNl rest
  | c :: rest =>
    match splitNl rest with
    | [] => [[c]]
    | seg :: segs => (c :: seg) :: segs

def stripTrailingCR (l : List Char) : List Char :=
  match l.getLast? with
  | some '\r' => l.dropLast
  | _ => l

/-- Rust `str::lines` on the embedded string. -/
def rustLines (s : String) : List String :=
  if s.data = [] then []
  else
    let parts := splitNl s.data
    let body := parts.dropLast.map (fun l => String.mk (stripTrailingCR l))
    match parts.getLast? with
    | some [] => body
    | some lastSeg => body ++ [String.mk lastSeg]
    | none => body

/-! ### Progress bar (main.rs lines 339-348) -/

/-- Rust `str::repeat`. -/
def strRepeat (s : String) (n : Nat) : String := String.join (List.replicate n s)

/-- `fn progress_bar` (main.rs lines 339-348).  Rust guards both divisions
with `if total > 0`, so `total = 0` performs no division at all. -/
def progress_bar (done total width : Nat) : String :=
  let filled := if total > 0 then done * width / total else 0
  let empty := width - filled
  let pct := if total > 0 then done * 100 / total else 0
  GREEN ++ strRepeat "█" filled ++ strRepeat "░" empty ++
    "  " ++ toString done ++ "/" ++ toString total ++
    " (" ++ toString pct ++ "%)" ++ RESET

/-! ### Rendering (main.rs lines 350-458)

Each render function returns the text it writes.  Rust's `{:2}` format pads
a number on the left to width 2 and `{:<22}` pads a string on the right to
width 22, both counting characters. -/

def padLeft (s : String) (w : Nat) : String := strRepeat " " (w - s.length) ++ s

def padRight (s : String) (w : Nat) : String := s ++ strRepeat " " (w - s.length)

/-- `fn render_header` (main.rs lines 350-365).  Rust indexes
`&exercises[current]`; the claims keep `current` in range, so `getD` with
the default exercise is only a totalisation. -/
def render_header (exercises : List Exercise) (current : Nat) (done : Nat) : String :=
  let total := exercises.length
  let ex := exercises.getD current default
  let bar := progress_bar done total 20
  rprintln (BOLD ++ BLUE ++ "─── OS Camp ─── Rust & OS Advanced Experiments ───" ++ RESET) ++
  rprintln ("  Progress: " ++ bar) ++
  rprintln "" ++
  rprintln ("  " ++ BOLD ++ "▶ Exercise " ++ toString (current + 1) ++ "/" ++ toString total ++
    ": " ++ ex.name ++ RESET) ++
  rprintln ("    " ++ DIM ++ "Module:" ++ RESET ++ " " ++ ex.module) ++
  rprintln ("    " ++ CYAN ++ ex.description ++ RESET) ++
  rprintln ("    " ++ DIM ++ "📄 " ++ ex.path ++ RESET)

/-- `fn render_failure` (main.rs lines 367-380): at most the last
`max_lines = 30` lines of the captured output, preceded by an omission
marker when `lines.len().saturating_sub(30) > 0`. -/
def render_failure (result : TestResult) : String :=
  rprintln ("\n  " ++ BOLD ++ RED ++ "❌ Test failed" ++ RESET ++ "\n") ++
  (let lines := rustLines result.output
   let max_lines := 30
   let start := lines.length - max_lines
   (if start > 0 then
      rprintln ("  " ++ DIM ++ "... omitted " ++ toString start ++ " lines ..." ++ RESET)
    else "") ++
   String.join ((lines.drop start).map (fun line => rprintln ("  " ++ line))))

/-- `fn render_controls` (main.rs lines 382-397). -/
def render_controls : String :=
  rprintln "" ++
  rprintln (DIM ++ "  ─────────────────────────────────────────" ++ RESET) ++
  rprintln ("  " ++ BOLD ++ "h" ++ RESET ++ " hint  " ++ BOLD ++ "l" ++ RESET ++ " list  " ++
    BOLD ++ "n" ++ RESET ++ "/" ++ BOLD ++ "p" ++ RESET ++ " prev/next  " ++
    BOLD ++ "r" ++ RESET ++ " retest  " ++ BOLD ++ "q" ++ RESET ++ " quit") ++
  rprintln ("  " ++ DIM ++ "📡 Watching for file changes, automatically retests after saving" ++ RESET)

/-- `fn render_hint` (main.rs lines 399-404). -/
def render_hint (ex : Exercise) : String :=
  rprintln ("\n  " ++ BOLD ++ YELLOW ++ "💡 Hint:" ++ RESET) ++
  String.join ((rustLines ex.hint).map (fun line => rprintln ("  " ++ YELLOW ++ line ++ RESET)))

/-- Body of the `for` loop of `fn render_list` (main.rs lines 409-425),
threading the index `i` and the mutable `cur_module`. -/
def render_list_go (current : Nat) (done : List Bool) :
    Nat → String → List Exercise → String
  | _, _, [] => ""
  | i, cur_module, ex :: rest =>
    let moduleLine :=
      if ex.module ≠ cur_module then
        rprintln ("  " ++ YELLOW ++ "[" ++ ex.module ++ "]" ++ RESET)
      else ""
    let cur_module' := if ex.module ≠ cur_module then ex.module else cur_module
    let marker := if i = current then "▶" else " "
    let status := if done.getD i false then GREEN ++ "✅" ++ RESET else RED ++ "  " ++ RESET
    moduleLine ++
    rprintln ("  " ++ marker ++ " " ++ status ++ " " ++ padLeft (toString (i + 1)) 2 ++ ". " ++
      padRight ex.name 22 ++ " (" ++ DIM ++ ex.package ++ RESET ++ ")") ++
    render_list_go current done (i + 1) cur_module' rest

/-- `fn render_list` (main.rs lines 406-426). -/
def render_list (exercises : List Exercise) (current : Nat) (done : List Bool) : String :=
  rprintln ("\n  " ++ BOLD ++ BLUE ++ "Exercise list:" ++ RESET ++ "\n") ++
  render_list_go current done 0 "" exercises

/-- `fn full_redraw` (main.rs lines 428-458): the text drawn after the
screen clear.  When `show_list` is set the list is drawn and both the
outcome panel and the hint block are skipped; otherwise the outcome panel
(pass banner or failure detail) is drawn, then the hint block when
`show_hint` is set; `render_controls` closes both branches. -/
def full_redraw (exercises : List Exercise) (current : Nat) (done_n : Nat)
    (result : Option TestResult) (show_hint show_list : Bool) (done : List Bool) : String :=
  (if show_list then
    render_header exercises current done_n ++ render_list exercises current done
  else
    render_header exercises current done_n ++
    (match result with
     | some r =>
       if r.passed then rprintln ("\n  " ++ BOLD ++ GREEN ++ "✅ Test passed!" ++ RESET)
       else render_failure r
     | none => "") ++
    (if show_hint then render_hint (exercises.getD current default) else "")) ++
  render_controls

/-! ### The watch-mode controller (main.rs lines 140-335) -/

/-- `fn count_done` (main.rs lines 158-160). -/
def count_done (done : List Bool) : Nat := done.count true

/-- Body of the `for i in 1..=n` loop of `fn find_next_incomplete`
(main.rs lines 313-318), over the remaining offsets to try. -/
def findNextAux (done : List Bool) (current : Nat) : List Nat → Option Nat
  | [] => none
  | i :: rest =>
    let idx := (current + i) % done.length
    if done.getD idx false = false then some idx
    else findNextAux done current rest

/-- `fn find_next_incomplete` (main.rs lines 311-320). -/
def find_next_incomplete (done : List Bool) (current : Nat) : Option Nat :=
  findNextAux done current (List.range' 1 done.length)

/-- The keys decoded by the event loop (main.rs lines 253-293) and by
`wait_for_quit` (main.rs lines 322-335); `other` stands for every
unrecognised key. -/
inductive Key
  | q | esc | ctrlC | h | l | n | p | r | enter | other
deriving DecidableEq, Repr

/-- One observable stimulus of a loop iteration: a decoded keypress, a
debounced file-change signal on the watcher channel (main.rs lines
298-303), or a poll timeout with no pending event. -/
inductive Ev
  | key (k : Key)
  | fsChanged
  | tick
deriving DecidableEq, Repr

/-- Control position of the session: inside the main loop (`running`),
inside `wait_for_quit` after the completion banner (`allComplete`), or
after `break` (`quitting`). -/
inductive Phase
  | running | allComplete | quitting
deriving DecidableEq, Repr

/-- The mutable state owned by `watch_mode` (main.rs lines 140-309),
plus `screen`: the text of the most recent full draw. -/
structure SessionState where
  exercises : List Exercise
  done : List Bool
  current : Nat
  needs_retest : Bool
  last_result : Option TestResult
  show_hint : Bool
  show_list : Bool
  phase : Phase
  screen : String
deriving DecidableEq, Repr

/-- Screen drawn on a failed retest (main.rs lines 240-244). -/
def screenFailure (exercises : List Exercise) (current : Nat) (done : List Bool)
    (result : TestResult) : String :=
  render_header exercises current (count_done done) ++ render_failure result ++ render_controls

/-- Screen drawn on a pass with a next incomplete exercise
(main.rs lines 211-224): header (with `done` already updated), pass
banner, auto-jump notice; `render_controls` is skipped by `continue`. -/
def screenPassJump (exercises : List Exercise) (passedIdx nextIdx : Nat)
    (done' : List Bool) : String :=
  render_header exercises passedIdx (count_done done') ++
  rprintln ("\n  " ++ BOLD ++ GREEN ++ "✅ Exercise \x27" ++
    (exercises.getD passedIdx default).name ++ "\x27 passed!" ++ RESET) ++
  rprintln ("\n  ➡  Auto-jump: " ++ CYAN ++ (exercises.getD nextIdx default).name ++ RESET)

/-- Screen drawn when the last incomplete exercise passes
(main.rs lines 211-235): header, pass banner, completion banner, quit
prompt; `render_controls` is skipped by `break`. -/
def screenAllComplete (exercises : List Exercise) (current : Nat)
    (done' : List Bool) : String :=
  render_header exercises current (count_done done') ++
  rprintln ("\n  " ++ BOLD ++ GREEN ++ "✅ Exercise \x27" ++
    (exercises.getD current default).name ++ "\x27 passed!" ++ RESET) ++
  rprintln "" ++
  rprintln ("  " ++ BOLD ++ GREEN ++ "🎉 Congratulations! All " ++
    toString exercises.length ++ " exercises passed!" ++ RESET) ++
  rprintln ("\n  Press " ++ BOLD ++ "q" ++ RESET ++ " to quit")

/-- The `needs_retest` branch of the loop body (main.rs lines 192-248),
with the outcome the external `cargo test` run would produce passed in as
`result`.  Both toggles are cleared before the run (lines 193-194).  On a
pass `done[current]` is set (line 210) and `find_next_incomplete` decides
between auto-jump (lines 217-227) and the completion path
(lines 228-237, which ends in `wait_for_quit` then `break`).  On a failure
only `last_result` and the screen change and `needs_retest` is cleared
(lines 239-247). -/
def stepRetest (s : SessionState) (result : TestResult) : SessionState :=
  if result.passed then
    let done' := s.done.set s.current true
    match find_next_incomplete done' s.current with
    | some next =>
      { s with done := done', current := next,
               show_hint := false, show_list := false,
               last_result := some result, needs_retest := true,
               screen := screenPassJump s.exercises s.current next done' }
    | none =>
      { s with done := done',
               show_hint := false, show_list := false,
               needs_retest := false, phase := .allComplete,
               screen := screenAllComplete s.exercises s.current done' }
  else
    { s with show_hint := false, show_list := false,
             last_result := some result, needs_retest := false,
             screen := screenFailure s.exercises s.current s.done result }

/-- One iteration of the controller (main.rs lines 190-304 together with
`wait_for_quit`, lines 322-335).  While `needs_retest` holds the iteration
services the retest before looking at any event; otherwise the stimulus
`ev` is dispatched exactly as the `match key.code` arms do: `q`/Esc/Ctrl-C
break, `h` redraws with `show_list` passed as literal `false`
(main.rs line 265), `l` redraws with both current flags, `n`/`p` move
`current` with wraparound and owe a retest, `r`/Enter and a file-change
signal owe a retest, anything else is ignored.  In `allComplete`
(`wait_for_quit`) only the quit keys have any effect. -/
def step (s : SessionState) (ev : Ev) (oracle : TestResult) : SessionState :=
  match s.phase with
  | .quitting => s
  | .allComplete =>
    match ev with
    | .key .q | .key .esc | .key .ctrlC => { s with phase := .quitting }
    | _ => s
  | .running =>
    if s.needs_retest then stepRetest s oracle
    else
      match ev with
      | .key .q | .key .esc | .key .ctrlC => { s with phase := .quitting }
      | .key .h =>
        let sh := !s.show_hint
        { s with show_hint := sh,
                 screen := full_redraw s.exercises s.current (count_done s.done)
                   s.last_result sh false s.done }
      | .key .l =>
        let sl := !s.show_list
        { s with show_list := sl,
                 screen := full_redraw s.exercises s.current (count_done s.done)
                   s.last_result s.show_hint sl s.done }
      | .key .n =>
        { s with current := (s.current + 1) % s.exercises.length, needs_retest := true }
      | .key .p =>
        { s with current := if s.current > 0 then s.current - 1 else s.exercises.length - 1,
                 needs_retest := true }
      | .key .r | .key .enter => { s with needs_retest := true }
      | .key .other => s
      | .fsChanged => { s with needs_retest := true }
      | .tick => s

/-! ### Startup boundary (main.rs lines 167-183)

The three fallible startup steps between the initial scan and the loop are
modelled by the `Except` results the runtime would deliver. -/

inductive StartupResult
  | aborted (msg : String)
  | enteredLoop (watchingActive : Bool)
deriving DecidableEq, Repr

/-- Startup of the interactive part of `watch_mode` (main.rs lines
167-183): `enable_raw_mode().expect(..)` and `RecommendedWatcher::new(..)
.expect(..)` abort on failure, while the result of
`watcher.watch(Path::new("exercises"), RecursiveMode::Recursive)` is
discarded with `.ok()`, so the loop is entered either way. -/
def watch_mode_startup (rawModeResult : Except String Unit)
    (watcherNewResult : Except String Unit)
    (watchDirResult : Except String Unit) : StartupResult :=
  match rawModeResult with
  | .error _ => .aborted "Failed to enable terminal raw mode"
  | .ok _ =>
    match watcherNewResult with
    | .error _ => .aborted "Failed to create file watcher"
    | .ok _ =>
      match watchDirResult with
      | .ok _ => .enteredLoop true
      | .error _ => .enteredLoop false

/-! ### Test-process spawn boundary (main.rs lines 82-125) -/

inductive RunOutcome
  | abortedRun (msg : String)
  | completed (result : TestResult)
deriving DecidableEq, Repr

/-- End of `fn test_exercise` (main.rs lines 93-105) as a function of the
`io::Result` of `Command::output()` (success flag, stderr, stdout):
`.expect("Failed to run cargo test")` aborts the program on a spawn
failure; otherwise the combined output is stderr followed by stdout. -/
def test_exercise_outcome (spawn : Except String (Bool × String × String)) : RunOutcome :=
  match spawn with
  | .error _ => .abortedRun "Failed to run cargo test"
  | .ok (success, errText, outText) =>
    .completed { passed := success, output := errText ++ outText }

inductive QuietOutcome
  | abortedQuiet (msg : String)
  | finished (passed : Bool)
deriving DecidableEq, Repr

/-- End of `fn test_quiet` (main.rs lines 118-124) as a function of the
`io::Result` of `Command::status()`:
`.status().map(|s| s.success()).unwrap_or(false)` never aborts — a spawn
failure becomes the ordinary value `false`. -/
def test_quiet_outcome (spawn : Except String Bool) : QuietOutcome :=
  match spawn with
  | .error _ => .finished false
  | .ok success => .finished success

/-! ### Terminal-mode lifecycle (main.rs lines 167, 190-308)

`terminal::disable_raw_mode().unwrap()` is the first statement after the
loop (line 306), so it runs exactly when the loop exits by `break`.  Every
`.unwrap()`/`.expect(..)` inside the loop (`event::poll`, `event::read`,
`execute!`, `flush`, `Command::output`) panics on failure and unwinds out
of `watch_mode`; no guard restores the terminal on that path.  A script
entry `none` is an iteration in which one of those calls failed; a
`some (ev, oracle)` entry is a normal iteration. -/

inductive RunEnd
  | returnedNormally
  | unwound
deriving DecidableEq, Repr

inductive TermMode
  | raw | cooked
deriving DecidableEq, Repr

/-- How the loop (entered in raw mode) terminates on a given script, or
`none` when the script ends with the loop still running. -/
def runLoop (s : SessionState) : List (Option (Ev × TestResult)) → Option RunEnd
  | [] => none
  | none :: _ => some .unwound
  | some (ev, oracle) :: rest =>
    let s' := step s ev oracle
    if s'.phase = .quitting then some .returnedNormally else runLoop s' rest

/-- Terminal mode after the loop has terminated: `disable_raw_mode` (line
306) runs only on the `break` path; unwinding skips it. -/
def finalTermMode (s : SessionState) (script : List (Option (Ev × TestResult))) :
    Option TermMode :=
  match runLoop s script with
  | none => none
  | some .returnedNormally => some .cooked
  | some .unwound => some .raw

/-! ### Spec-side predicates (from the specification's words, for the
refinement statements) -/

/-- The specification's "first index with `done == false` encountered by
scanning forward from `current+1` with wraparound modulo the exercise
count": `idx` is hit at some offset `k` in `[1, n]` and every earlier
offset lands on a completed exercise. -/
def isFirstIncompleteFrom (done : List Bool) (current idx : Nat) : Prop :=
  ∃ k, 1 ≤ k ∧ k ≤ done.length ∧ idx = (current + k) % done.length ∧
    done.getD idx false = false ∧
    ∀ j, 1 ≤ j → j < k → done.getD ((current + j) % done.length) false = true

/-- Every exercise is done. -/
def allDone (done : List Bool) : Prop :=
  ∀ i, i < done.length → done.getD i false = true

/-- The quit commands: `q`, Esc, Ctrl-C. -/
def quitEv (ev : Ev) : Prop :=
  ev = .key .q ∨ ev = .key .esc ∨ ev = .key .ctrlC

instance : DecidablePred quitEv := fun ev => by
  unfold quitEv; infer_instance

/-- Convenience constructor for a session state, fields in declaration
order. -/
def mkSession (exs : List Exercise) (don : List Bool) (cur : Nat) (nr : Bool)
    (lr : Option TestResult) (sh sl : Bool) (ph : Phase) (scr : String) : SessionState :=
  ⟨exs, don, cur, nr, lr, sh, sl, ph, scr⟩

/-- What the specification requires of the state `s'` reached from a
passing retest of exercise `cur` with completion vector `don`:
`done[cur]` has been set, the new `current` is the first incomplete index
on the forward wraparound scan (or, all being done, the session is in
`allComplete`), and `allComplete` is only left by a quit command. -/
def autoAdvanceSpec (don : List Bool) (cur : Nat) (s' : SessionState) : Prop :=
  s'.done = don.set cur true ∧
  ((isFirstIncompleteFrom (don.set cur true) cur s'.current ∧
      s'.phase = .running ∧ s'.needs_retest = true) ∨
    (allDone (don.set cur true) ∧ s'.phase = .allComplete ∧ s'.current = cur)) ∧
  (s'.phase = .allComplete →
    (∀ ev2 orc2, quitEv ev2 → (step s' ev2 orc2).phase = .quitting) ∧
    (∀ ev2 orc2, ¬ quitEv ev2 → step s' ev2 orc2 = s') ∧
    (∀ l : List (Ev × TestResult), (∀ p ∈ l, ¬ quitEv p.1) →
      l.foldl (fun t p => step t p.1 p.2) s' = s'))

/-! ### Concrete instances used by witnesses and counterexamples -/

def exA : Exercise :=
  { name := "a", package := "p", path := "e", module := "m", description := "d", hint := "h" }

def exB : Exercise :=
  { name := "b", package := "q", path := "f", module := "m", description := "d", hint := "h" }

def dummyResult : TestResult := ⟨false, ""⟩

/-- A running two-exercise session owing a retest of exercise 0. -/
def passReadyState : SessionState :=
  mkSession [exA, exB] [false, false] 0 true none false false .running ""

/-- A running one-exercise session with the list toggle on and no retest
owed. -/
def listOnState : SessionState :=
  mkSession [exA] [false] 0 false none false true .running ""

/-- A running one-exercise session with both toggles off and no retest
owed. -/
def idleState : SessionState :=
  mkSession [exA] [true] 0 false none false false .running ""

/-! ### Helper lemmas -/

lemma getD_set_true (l : List Bool) (j i : Nat) (h : l.getD i false = true) :
    (l.set j true).getD i false = true := by
  induction l generalizing i j with
  | nil => simp [List.getD] at h
  | cons a t ih =>
    cases j with
    | zero =>
      cases i with
      | zero => simp
      | succ i => simpa using h
    | succ j =>
      cases i with
      | zero => simpa using h
      | succ i => simpa using ih j i (by simpa using h)

lemma getD_set_self (l : List Bool) (j : Nat) (h : j < l.length) :
    (l.set j true).getD j false = true := by
  induction l generalizing j with
  | nil => simp at h
  | cons a t ih =>
    cases j with
    | zero => simp
    | succ j => simpa using ih j (by simpa using h)

lemma findNextAux_range'_some (done : List Bool) (current : Nat) :
    ∀ count start idx, findNextAux done current (List.range' start count) = some idx →
    ∃ k, start ≤ k ∧ k < start + count ∧ idx = (current + k) % done.length ∧
      done.getD idx false = false ∧
      ∀ j, start ≤ j → j < k → done.getD ((current + j) % done.length) false = true := by
  intro count
  induction count with
  | zero => intro start idx h; simp [findNextAux] at h
  | succ c ih =>
    intro start idx h
    rw [List.range'_succ] at h
    simp only [findNextAux] at h
    by_cases hc : done.getD ((current + start) % done.length) false = false
    · rw [if_pos hc] at h
      have hidx : (current + start) % done.length = idx := Option.some.inj h
      refine ⟨start, le_refl _, by omega, hidx.symm, hidx ▸ hc, ?_⟩
      intro j h1 h2
      omega
    · rw [if_neg hc] at h
      obtain ⟨k, hk1, hk2, hk3, hk4, hk5⟩ := ih (start + 1) idx h
      refine ⟨k, by omega, by omega, hk3, hk4, ?_⟩
      intro j hj1 hj2
      rcases Nat.eq_or_lt_of_le hj1 with heq | hlt
      · have hj : j = start := heq.symm
        subst hj
        cases hb : done.getD ((current + j) % done.length) false with
        | false => exact absurd hb hc
        | true => rfl
      · exact hk5 j hlt hj2

lemma findNextAux_range'_none (done : List Bool) (current : Nat) :
    ∀ count start, findNextAux done current (List.range' start count) = none →
    ∀ k, start ≤ k → k < start + count →
      done.getD ((current + k) % done.length) false = true := by
  intro count
  induction count with
  | zero => intro start _ k h1 h2; omega
  | succ c ih =>
    intro start h k h1 h2
    rw [List.range'_succ] at h
    simp only [findNextAux] at h
    by_cases hc : done.getD ((current + start) % done.length) false = false
    · rw [if_pos hc] at h; exact absurd h (by simp)
    · rw [if_neg hc] at h
      rcases Nat.eq_or_lt_of_le h1 with heq | hlt
      · have hj : k = start := heq.symm
        subst hj
        cases hb : done.getD ((current + k) % done.length) false with
        | false => exact absurd hb hc
        | true => rfl
      · exact ih (start + 1) h k hlt (by omega)

lemma exists_offset_mod (n c i : Nat) (hn : 0 < n) (hi : i < n) :
    ∃ k, 1 ≤ k ∧ k ≤ n ∧ (c + k) % n = i := by
  have hr : c % n < n := Nat.mod_lt _ hn
  by_cases hci : c % n < i
  · refine ⟨i - c % n, by omega, by omega, ?_⟩
    have h1 : (i - c % n) % n = i - c % n := Nat.mod_eq_of_lt (by omega)
    rw [Nat.add_mod, h1, show c % n + (i - c % n) = i from by omega]
    exact Nat.mod_eq_of_lt hi
  · refine ⟨n - c % n + i, by omega, by omega, ?_⟩
    obtain ⟨q, hq⟩ : ∃ q, n * q + c % n = c := ⟨c / n, Nat.div_add_mod c n⟩
    set X := n * q with hX
    have h2 : c + (n - c % n + i) = X + n + i := by omega
    rw [h2, hX, show n * q + n + i = n * (q + 1) + i from by ring, Nat.mul_add_mod]
    exact Nat.mod_eq_of_lt hi

/-- Soundness of `find_next_incomplete`: a hit is the first incomplete
index on the forward wraparound scan from `current + 1`. -/
lemma find_next_incomplete_some_spec (done : List Bool) (current idx : Nat)
    (h : find_next_incomplete done current = some idx) :
    isFirstIncompleteFrom done current idx := by
  obtain ⟨k, hk1, hk2, hk3, hk4, hk5⟩ :=
    findNextAux_range'_some done current done.length 1 idx h
  exact ⟨k, hk1, by omega, hk3, hk4, hk5⟩

/-- Completeness of `find_next_incomplete`: a miss means every index is
done. -/
lemma find_next_incomplete_none_spec (done : List Bool) (current : Nat)
    (h : find_next_incomplete done current = none) : allDone done := by
  intro i hi
  have hn : 0 < done.length := lt_of_le_of_lt (Nat.zero_le i) hi
  obtain ⟨k, h1, h2, h3⟩ := exists_offset_mod done.length current i hn hi
  have h4 := findNextAux_range'_none done current done.length 1 h k h1 (by omega)
  rw [h3] at h4
  exact h4

lemma stepRetest_done_mono (s : SessionState) (orc : TestResult) (i : Nat)
    (h : s.done.getD i false = true) : (stepRetest s orc).done.getD i false = true := by
  simp only [stepRetest]
  split
  · split <;> simpa using getD_set_true s.done s.current i h
  · simpa using h

lemma step_done_mono (s : SessionState) (ev : Ev) (orc : TestResult) (i : Nat)
    (h : s.done.getD i false = true) : (step s ev orc).done.getD i false = true := by
  unfold step
  split
  · exact h
  · split <;> simpa using h
  · split
    · exact stepRetest_done_mono s orc i h
    · split <;> simpa using h

lemma step_allComplete_quit (s : SessionState) (ev : Ev) (orc : TestResult)
    (hph : s.phase = .allComplete) (hquit : quitEv ev) :
    (step s ev orc).phase = .quitting := by
  unfold step
  rw [hph]
  rcases hquit with h | h | h <;> subst h <;> rfl

lemma step_allComplete_fix (s : SessionState) (ev : Ev) (orc : TestResult)
    (hph : s.phase = .allComplete) (hnq : ¬ quitEv ev) :
    step s ev orc = s := by
  unfold step
  rw [hph]
  cases ev with
  | key k =>
    cases k with
    | q => exact absurd (Or.inl rfl) hnq
    | esc => exact absurd (Or.inr (Or.inl rfl)) hnq
    | ctrlC => exact absurd (Or.inr (Or.inr rfl)) hnq
    | h => rfl
    | l => rfl
    | n => rfl
    | p => rfl
    | r => rfl
    | enter => rfl
    | other => rfl
  | fsChanged => rfl
  | tick => rfl

lemma foldl_step_fix (s : SessionState) (hph : s.phase = .allComplete)
    (l : List (Ev × TestResult)) (hl : ∀ p ∈ l, ¬ quitEv p.1) :
    l.foldl (fun t p => step t p.1 p.2) s = s := by
  induction l with
  | nil => rfl
  | cons p rest ih =>
    simp only [List.foldl_cons]
    rw [step_allComplete_fix s p.1 p.2 hph (hl p (List.mem_cons_self p rest))]
    exact ih (fun q hq => hl q (List.mem_cons_of_mem p hq))

/-! ### Claim theorems -/

/-- Claim C7: for display width 20 and every `total ≥ 1` and every
`done_count` in `[0, total]`, the progress bar shows exactly
`⌊done_count*20/total⌋` filled segments, `20` minus that many empty
segments, and a percentage label of exactly `⌊done_count*100/total⌋`, all
by integer arithmetic. -/
theorem progress_bar_arithmetic (total dc : Nat) (htot : 1 ≤ total) (hdc : dc ≤ total) :
    progress_bar dc total 20 =
      GREEN ++ strRepeat "█" (dc * 20 / total) ++
        strRepeat "░" (20 - dc * 20 / total) ++
        "  " ++ toString dc ++ "/" ++ toString total ++
        " (" ++ toString (dc * 100 / total) ++ "%)" ++ RESET ∧
    dc * 20 / total ≤ 20 ∧
    dc * 20 / total + (20 - dc * 20 / total) = 20 := by
  have hpos : 0 < total := htot
  have hle : dc * 20 / total ≤ 20 := by
    calc dc * 20 / total ≤ total * 20 / total :=
          Nat.div_le_div_right (Nat.mul_le_mul_right 20 hdc)
      _ = 20 := Nat.mul_div_cancel_left 20 hpos
  have h1 : (total > 0) = True := eq_true hpos
  refine ⟨?_, hle, by omega⟩
  simp only [progress_bar, h1, if_true]

theorem progress_bar_arithmetic_instance :
    1 ≤ 4 ∧ 3 ≤ 4 ∧
    (progress_bar 3 4 20 =
        GREEN ++ strRepeat "█" (3 * 20 / 4) ++
          strRepeat "░" (20 - 3 * 20 / 4) ++
          "  " ++ toString 3 ++ "/" ++ toString 4 ++
          " (" ++ toString (3 * 100 / 4) ++ "%)" ++ RESET ∧
      3 * 20 / 4 ≤ 20 ∧
      3 * 20 / 4 + (20 - 3 * 20 / 4) = 20) :=
  ⟨by decide, by decide, progress_bar_arithmetic 4 3 (by decide) (by decide)⟩

/-- Claim C10: at `total = 0` the progress bar performs no division (both
divisions sit under the `total > 0` guard) and returns zero filled
segments, `width` empty segments, and a `0%` label, for every
`done_count` and `width`. -/
theorem progress_bar_total_zero (dc width : Nat) :
    progress_bar dc 0 width =
      GREEN ++ strRepeat "█" 0 ++ strRepeat "░" width ++
        "  " ++ toString dc ++ "/" ++ toString 0 ++
        " (" ++ toString 0 ++ "%)" ++ RESET ∧
    strRepeat "█" 0 = "" := by
  constructor
  · simp only [progress_bar, gt_iff_lt, lt_self_iff_false, if_false, Nat.sub_zero]
  · rfl

/-- Claim C3 counterexample: with raw mode and watcher creation succeeding
but `watcher.watch(Path::new("exercises"), ..)` failing (for example the
directory is missing), `watch_mode` does not abort — the `Result` is
discarded by `.ok()` and the interactive loop is entered. -/
theorem watch_dir_failure_enters_loop :
    watch_mode_startup (.ok ()) (.ok ()) (.error "exercises directory missing") =
      .enteredLoop false := rfl

/-- Claim C3 as amended: a failure to create the `FileWatcher` aborts
startup with a diagnostic before the loop (as does a failure to enter raw
mode), but a failure of the `watch` call on the designated directory is
silently discarded and the interactive loop is entered without an active
watch. -/
theorem watcher_create_failure_aborts (rawErr e e' : String)
    (newRes dirRes : Except String Unit) :
    watch_mode_startup (.error rawErr) newRes dirRes =
      .aborted "Failed to enable terminal raw mode" ∧
    watch_mode_startup (.ok ()) (.error e) dirRes =
      .aborted "Failed to create file watcher" ∧
    watch_mode_startup (.ok ()) (.ok ()) (.error e') = .enteredLoop false ∧
    watch_mode_startup (.ok ()) (.ok ()) (.ok ()) = .enteredLoop true :=
  ⟨rfl, rfl, rfl, rfl⟩

/-- Claim C9 counterexample: a spawn failure in the quiet probe
`test_quiet` is converted by `.map(|s| s.success()).unwrap_or(false)` into
the ordinary result `false` and execution continues; it does not abort. -/
theorem quiet_spawn_failure_returns_failed :
    test_quiet_outcome (.error "failed to spawn cargo") = .finished false := rfl

/-- Claim C9 as amended: a spawn failure in the full invocation
`test_exercise` aborts the program with the diagnostic
"Failed to run cargo test", but the quiet probe `test_quiet` converts a
spawn failure into the ordinary value `false` and continues. -/
theorem spawn_failure_outcomes (e1 e2 : String) :
    test_exercise_outcome (.error e1) = .abortedRun "Failed to run cargo test" ∧
    test_quiet_outcome (.error e2) = .finished false :=
  ⟨rfl, rfl⟩

/-- Claim C8 counterexample: an iteration in which one of the loop's
`unwrap`/`expect` calls fails (for example a spawn or poll failure)
unwinds out of `watch_mode` without executing `disable_raw_mode`, so this
terminating path leaves the terminal in raw mode. -/
theorem panic_path_leaves_raw :
    runLoop idleState [none] = some RunEnd.unwound ∧
    finalTermMode idleState [none] = some TermMode.raw :=
  ⟨rfl, rfl⟩

/-- Claim C8 as amended: on every path on which the loop terminates by
`break` (normal quit and completion-then-quit), cooked terminal mode is
restored before `watch_mode` returns; on an abrupt failure inside the loop
the unwind skips the restore and the terminal stays raw. -/
theorem normal_exit_restores_cooked (s : SessionState)
    (script : List (Option (Ev × TestResult)))
    (h : runLoop s script = some .returnedNormally) :
    finalTermMode s script = some .cooked := by
  unfold finalTermMode
  rw [h]

theorem normal_exit_restores_cooked_instance :
    runLoop idleState [some (.key .q, dummyResult)] = some .returnedNormally ∧
    finalTermMode idleState [some (.key .q, dummyResult)] = some .cooked :=
  ⟨by decide, normal_exit_restores_cooked idleState [some (.key .q, dummyResult)] (by decide)⟩

/-- Claim C2: `done` is monotone — once `done[i]` is true, no transition
of the controller (a single step, and hence any finite run) ever makes it
false again. -/
theorem done_monotone :
    (∀ (s : SessionState) (ev : Ev) (orc : TestResult) (i : Nat),
        s.done.getD i false = true → (step s ev orc).done.getD i false = true) ∧
    (∀ (s : SessionState) (l : List (Ev × TestResult)) (i : Nat),
        s.done.getD i false = true →
        (l.foldl (fun t p => step t p.1 p.2) s).done.getD i false = true) := by
  refine ⟨step_done_mono, ?_⟩
  intro s l
  induction l generalizing s with
  | nil => intro i h; exact h
  | cons p rest ih =>
    intro i h
    simp only [List.foldl_cons]
    exact ih (step s p.1 p.2) i (step_done_mono s p.1 p.2 i h)

theorem done_monotone_instance :
    idleState.done.getD 0 false = true ∧
    (step idleState .fsChanged dummyResult).done.getD 0 false = true :=
  ⟨by decide, done_monotone.1 idleState .fsChanged dummyResult 0 (by decide)⟩

/-- Claim C1: after a passing retest of the current exercise the
controller sets `done[current]` and moves `current` to the first index
with `done == false` on the forward wraparound scan from `current + 1`; if
every index is done the session enters `allComplete`, which only a quit
command ever leaves.  Quantified over every completion vector and every
valid `current` (and every other piece of session state). -/
theorem auto_advance_after_pass (exs : List Exercise) (don : List Bool) (cur : Nat)
    (lr : Option TestResult) (sh sl : Bool) (scr out : String) (ev : Ev)
    (_hcur : cur < don.length) :
    autoAdvanceSpec don cur
      (step (mkSession exs don cur true lr sh sl .running scr) ev ⟨true, out⟩) := by
  have hs : step (mkSession exs don cur true lr sh sl .running scr) ev ⟨true, out⟩
      = stepRetest (mkSession exs don cur true lr sh sl .running scr) ⟨true, out⟩ := rfl
  rw [hs]
  unfold autoAdvanceSpec
  cases hfind : find_next_incomplete (don.set cur true) cur with
  | some next =>
    have hred : stepRetest (mkSession exs don cur true lr sh sl .running scr) ⟨true, out⟩
        = mkSession exs (don.set cur true) next true (some ⟨true, out⟩) false false .running
            (screenPassJump exs cur next (don.set cur true)) := by
      simp [stepRetest, mkSession, hfind]
    rw [hred]
    refine ⟨rfl, Or.inl ⟨find_next_incomplete_some_spec _ _ _ hfind, rfl, rfl⟩, ?_⟩
    intro hph
    exact absurd hph (by simp [mkSession])
  | none =>
    have hred : stepRetest (mkSession exs don cur true lr sh sl .running scr) ⟨true, out⟩
        = mkSession exs (don.set cur true) cur false lr false false .allComplete
            (screenAllComplete exs cur (don.set cur true)) := by
      simp [stepRetest, mkSession, hfind]
    rw [hred]
    refine ⟨rfl, Or.inr ⟨find_next_incomplete_none_spec _ _ hfind, rfl, rfl⟩, ?_⟩
    intro _
    refine ⟨?_, ?_, ?_⟩
    · intro ev2 orc2 hq
      exact step_allComplete_quit _ ev2 orc2 rfl hq
    · intro ev2 orc2 hnq
      exact step_allComplete_fix _ ev2 orc2 rfl hnq
    · intro l hl
      exact foldl_step_fix _ rfl l hl

theorem auto_advance_after_pass_instance :
    (0 : Nat) < ([false, false] : List Bool).length ∧
    autoAdvanceSpec [false, false] 0
      (step (mkSession [exA, exB] [false, false] 0 true none false false .running "")
        .tick ⟨true, "ok"⟩) :=
  ⟨by decide,
   auto_advance_after_pass [exA, exB] [false, false] 0 none false false "" "ok" .tick
     (by decide)⟩

/-- Claim C6: a failing retest changes neither `current` nor any entry of
`done`; the screen it leaves is the exercise header followed by the
failure panel (and the controls line), and the failure panel shows the
tail of at most the last 30 lines of the captured output, preceded by an
"... omitted N lines ..." marker exactly when the output has more than 30
lines, with `N` the number of dropped lines.  Quantified over every
captured output string and every session state. -/
theorem failing_retest_keeps_progress (exs : List Exercise) (don : List Bool) (cur : Nat)
    (lr : Option TestResult) (sh sl : Bool) (scr out : String) (ev : Ev) :
    (step (mkSession exs don cur true lr sh sl .running scr) ev ⟨false, out⟩).done = don ∧
    (step (mkSession exs don cur true lr sh sl .running scr) ev ⟨false, out⟩).current = cur ∧
    (step (mkSession exs don cur true lr sh sl .running scr) ev ⟨false, out⟩).screen =
      render_header exs cur (count_done don) ++ render_failure ⟨false, out⟩ ++
        render_controls ∧
    render_failure ⟨false, out⟩ =
      rprintln ("\n  " ++ BOLD ++ RED ++ "❌ Test failed" ++ RESET ++ "\n") ++
      ((if 30 < (rustLines out).length then
        rprintln ("  " ++ DIM ++ "... omitted " ++ toString ((rustLines out).length - 30) ++
          " lines ..." ++ RESET)
      else "") ++
      String.join (((rustLines out).drop ((rustLines out).length - 30)).map
        (fun line => rprintln ("  " ++ line)))) ∧
    ((rustLines out).drop ((rustLines out).length - 30)).length =
      min 30 (rustLines out).length ∧
    (rustLines out).take ((rustLines out).length - 30) ++
      (rustLines out).drop ((rustLines out).length - 30) = rustLines out ∧
    ((rustLines out).take ((rustLines out).length - 30)).length =
      (rustLines out).length - 30 := by
  refine ⟨rfl, rfl, rfl, ?_, ?_, List.take_append_drop _ _, ?_⟩
  · simp only [render_failure, gt_iff_lt,
      show (0 < (rustLines out).length - 30) ↔ (30 < (rustLines out).length) from by omega]
  · rw [List.length_drop]
    omega
  · rw [List.length_take]
    omega

set_option maxRecDepth 16000 in
set_option maxHeartbeats 2000000 in
/-- Claim C4 counterexample: starting from a state whose list toggle is
on, two `ToggleHint` presses do not restore the prior render — the
`h` handler redraws with `show_list` passed as literal `false`
(main.rs line 265), so the list view is not reproduced. -/
theorem toggle_hint_twice_counterexample :
    ¬ ((step (step listOnState (.key .h) dummyResult) (.key .h) dummyResult).done =
          listOnState.done ∧
       (step (step listOnState (.key .h) dummyResult) (.key .h) dummyResult).current =
          listOnState.current ∧
       (step (step listOnState (.key .h) dummyResult) (.key .h) dummyResult).screen =
          full_redraw listOnState.exercises listOnState.current
            (count_done listOnState.done) listOnState.last_result
            listOnState.show_hint listOnState.show_list listOnState.done) := by
  decide

/-- Claim C4 as amended: pressing `ToggleHint` twice in succession (no
retest or other state-changing event between) leaves `done`, `current`,
`show_hint`, `show_list`, `needs_retest` and the phase unchanged, and the
final render equals the prior render, provided `show_list` is false; when
`show_list` is true the `h` handler's hard-coded `show_list = false`
argument makes the final render differ from the prior (list) render. -/
theorem toggle_hint_twice_restores_render (exs : List Exercise) (don : List Bool)
    (cur : Nat) (lr : Option TestResult) (sh : Bool) (scr : String)
    (orc1 orc2 : TestResult) :
    (step (step (mkSession exs don cur false lr sh false .running scr) (.key .h) orc1)
        (.key .h) orc2).done = don ∧
    (step (step (mkSession exs don cur false lr sh false .running scr) (.key .h) orc1)
        (.key .h) orc2).current = cur ∧
    (step (step (mkSession exs don cur false lr sh false .running scr) (.key .h) orc1)
        (.key .h) orc2).show_hint = sh ∧
    (step (step (mkSession exs don cur false lr sh false .running scr) (.key .h) orc1)
        (.key .h) orc2).show_list = false ∧
    (step (step (mkSession exs don cur false lr sh false .running scr) (.key .h) orc1)
        (.key .h) orc2).needs_retest = false ∧
    (step (step (mkSession exs don cur false lr sh false .running scr) (.key .h) orc1)
        (.key .h) orc2).phase = .running ∧
    (step (step (mkSession exs don cur false lr sh false .running scr) (.key .h) orc1)
        (.key .h) orc2).screen =
      full_redraw exs cur (count_done don) lr sh false don := by
  cases sh with
  | false => exact ⟨rfl, rfl, rfl, rfl, rfl, rfl, rfl⟩
  | true => exact ⟨rfl, rfl, rfl, rfl, rfl, rfl, rfl⟩

set_option maxRecDepth 16000 in
set_option maxHeartbeats 2000000 in
/-- Claim C5 counterexample: pressing `ToggleHint` with the list toggle on
leaves both display flags set, yet the screen rendered is not the
module-grouped exercise list — the `h` handler passes `show_list` as
literal `false` (main.rs line 265), so the outcome/hint view is drawn
instead. -/
theorem list_precedence_counterexample :
    (step listOnState (.key .h) dummyResult).show_hint = true ∧
    (step listOnState (.key .h) dummyResult).show_list = true ∧
    (step listOnState (.key .h) dummyResult).screen ≠
      render_header listOnState.exercises listOnState.current
        (count_done listOnState.done) ++
      render_list listOnState.exercises listOnState.current listOnState.done ++
      render_controls := by
  refine ⟨rfl, rfl, ?_⟩
  decide

/-- Claim C5 as amended: whenever `full_redraw` is invoked with
`show_list = true` it draws the module-grouped exercise list below the
header (followed by the controls line) and neither the outcome panel nor
the hint block, for every `show_hint` value and every last outcome — so
the list takes precedence in every redraw that passes the session's real
flags (the `l` handler); only the `h` handler escapes this by passing
`show_list` as literal `false`. -/
theorem list_takes_precedence (exs : List Exercise) (cur dn : Nat)
    (result : Option TestResult) (sh : Bool) (don : List Bool) :
    full_redraw exs cur dn result sh true don =
      render_header exs cur dn ++ render_list exs cur don ++ render_controls ∧
    full_redraw exs cur dn result sh true don = full_redraw exs cur dn none false true don := by
  have h : ∀ (r : Option TestResult) (shx : Bool),
      full_redraw exs cur dn r shx true don =
        render_header exs cur dn ++ render_list exs cur don ++ render_controls := by
    intro r shx
    unfold full_redraw
    rw [if_pos rfl]
  exact ⟨h result sh, (h result sh).trans (h none false).symm⟩

end OsCamp
